import Mathlib

/-!
Verification of the blocking (sync) query-execution layer of the sqlx fork:
the `SyncExecutor` capability contract (`sqlx-core/src/sync_executor.rs`) and
the SQLite backend bridge (`sqlx-sqlite/src/connection/sync.rs`).

Iterators are modelled as finite lists of items; `Result<T, E>` as
`Except Error T`; the `either::Either<QueryResult, Row>` tagged union as a
two-variant inductive.  The opaque native engine (`execute::iter`,
`worker::prepare`) is a function parameter, since the spec treats it as an
external collaborator and every claim quantifies over its behaviour.
-/

/-- Mirrors `either::Either`: `left` carries a statement summary
(`QueryResult`), `right` carries a row, exactly as the source uses it. -/
inductive Either (α β : Type) where
  | left (a : α)
  | right (b : β)
deriving DecidableEq, Repr

/-- Mirrors `Either::is_right` from the `either` crate. -/
def Either.isRight : Either α β → Bool
  | .left _ => false
  | .right _ => true

/-- The error kinds of `sqlx_core::Error` that this layer constructs or
inspects: `Error::Encode` (argument binding failed), `Error::RowNotFound`,
and engine/database failures (payloads abstracted as numbers). -/
inductive Error where
  | Encode (e : Nat)
  | RowNotFound
  | Database (e : Nat)
deriving DecidableEq, Repr

/-- `SqliteQueryResult`: the statement-result summary (rows changed and the
last insert rowid, as in the sqlite driver). -/
structure SqliteQueryResult where
  changes : Nat
  last_insert_rowid : Int
deriving DecidableEq, Repr

/-- `SqliteRow`: one result row; the column payload is abstracted as a list
of values since this layer never looks inside a row. -/
structure SqliteRow where
  values : List Int
deriving DecidableEq, Repr

/-- `SqliteArguments`: a bound-argument bundle (contents opaque to this
layer). -/
abbrev SqliteArguments := List Int

/-- `SqliteTypeInfo`: a parameter type hint (opaque to this layer; the
sqlite backend ignores these). -/
abbrev SqliteTypeInfo := Nat

/-- `SqliteStatement`: a prepared statement.  `sql` is the text the handle
carries; the remaining metadata (parameter count, columns) is abstracted. -/
structure SqliteStatement where
  sql : String
  parameters : Nat
  columns : List String
deriving DecidableEq, Repr

/-- One item of the tagged stream: `Result<Either<QueryResult, Row>, Error>`. -/
abbrev SqliteStreamItem := Except Error (Either SqliteQueryResult SqliteRow)

/-- The opaque native engine's execution primitive `execute::iter`: from SQL
text, optional bound arguments and the persistence flag it produces the raw
tagged stream, or fails during setup. -/
abbrev SqliteEngine := String → Option SqliteArguments → Bool → Except Error (List SqliteStreamItem)

/-- A query as consumed by the executor (`Execute` impl): its SQL text, the
result of `take_arguments()` (which may fail with an encode error and may
yield no arguments), and the persistence hint `persistent()`. -/
structure SqliteQuery where
  sql : String
  arguments : Except Nat (Option SqliteArguments)
  persistent : Bool

/-- `SyncSqliteConnection::execute` (the backend bridge, sync.rs lines
29-51): delegate to `execute::iter`; with no limit return the raw stream;
with a limit, tag each item with `idx + 1` when it is an `Ok` row and `idx`
otherwise (where `idx` is the immutable binding `let idx = 0;` captured by
the closure), keep items while the tag is below the limit, then drop the
tags. -/
def SyncSqliteConnection.execute (engine : SqliteEngine) (query : String)
    (args : Option SqliteArguments) (persistent : Bool) (limit : Option Nat) :
    Except Error (List SqliteStreamItem) :=
  match engine query args persistent with
  | .error e => .error e
  | .ok iter =>
    match limit with
    | some limit =>
      let idx := 0
      .ok (((iter.map (fun item =>
          match item with
          | .ok it => if it.isRight then (idx + 1, Except.ok it) else (idx, Except.ok it)
          | _ => (idx, item))).takeWhile (fun p => decide (p.1 < limit))).map Prod.snd)
    | none => .ok iter

/-- Mirrors `Result::into_iter().flatten()` as applied in `fetch_many`: an
`Ok` iterator is yielded in full, an `Err` yields nothing at all. -/
def resultToList : Except Error (List α) → List α
  | .ok l => l
  | .error _ => []

/-- The scan loop of `fetch_optional`: walk the stream, propagate the first
error (`res?`), return the first row (`Either::Right`), skip summaries, and
yield `none` when the stream ends. -/
def firstRow : List SqliteStreamItem → Except Error (Option SqliteRow)
  | [] => .ok none
  | .error e :: _ => .error e
  | .ok (.left _) :: rest => firstRow rest
  | .ok (.right r) :: _ => .ok (some r)

/-- `fetch_optional`'s handling of the bridge result: `?` on the setup
`Result`, then the scan loop over the stream. -/
def scanRows (res : Except Error (List SqliteStreamItem)) : Except Error (Option SqliteRow) :=
  match res with
  | .error e => .error e
  | .ok items => firstRow items

/-- `<&mut SyncSqliteConnection as SyncExecutor>::fetch_many` (sync.rs lines
72-98): on a `take_arguments` failure return the one-item failing stream;
otherwise compute `persistent = query.persistent() && arguments.is_some()`
and flatten the bridge's `Result` into a stream via
`into_iter().flatten()`. -/
def SyncSqliteConnection.fetch_many (engine : SqliteEngine) (query : SqliteQuery) :
    List SqliteStreamItem :=
  match query.arguments with
  | .error e => [.error (.Encode e)]
  | .ok arguments =>
    let persistent := query.persistent && arguments.isSome
    resultToList (SyncSqliteConnection.execute engine query.sql arguments persistent none)

/-- `<&mut SyncSqliteConnection as SyncExecutor>::fetch_optional` (sync.rs
lines 100-119): `?` on `take_arguments`, compute the same persistence flag,
call the bridge with `limit = None`, `?` on its setup result, and scan for
the first row. -/
def SyncSqliteConnection.fetch_optional (engine : SqliteEngine) (query : SqliteQuery) :
    Except Error (Option SqliteRow) :=
  match query.arguments with
  | .error e => .error (.Encode e)
  | .ok arguments =>
    let persistent := query.persistent && arguments.isSome
    scanRows (SyncSqliteConnection.execute engine query.sql arguments persistent none)

/-- `<&mut SyncSqliteConnection as SyncExecutor>::prepare_with` (sync.rs
lines 121-134): ignore the parameter hints, delegate to the worker's
prepare primitive, then re-tag the statement with the caller's SQL text
(`SqliteStatement \x7b sql: sql.into(), ..statement \x7d`). -/
def SyncSqliteConnection.prepare_with (wp : String → Except Error SqliteStatement)
    (sql : String) (_parameters : List SqliteTypeInfo) : Except Error SqliteStatement :=
  match wp sql with
  | .error e => .error e
  | .ok statement => .ok { statement with sql := sql }

/-- `SyncExecutor::execute_many` (sync_executor.rs lines 32-47): filter the
`fetch_many` stream down to summaries, keeping errors at their positions and
dropping rows. -/
def SyncExecutor.execute_many {Q R : Type} (s : List (Except Error (Either Q R))) :
    List (Except Error Q) :=
  s.filterMap fun res =>
    match res with
    | .ok (.left rows) => some (.ok rows)
    | .ok (.right _) => none
    | .error err => some (.error err)

/-- `SyncExecutor::fetch` (sync_executor.rs lines 50-65): filter the
`fetch_many` stream down to rows, keeping errors at their positions and
dropping summaries. -/
def SyncExecutor.fetch {Q R : Type} (s : List (Except Error (Either Q R))) :
    List (Except Error R) :=
  s.filterMap fun res =>
    match res with
    | .ok (.left _) => none
    | .ok (.right row) => some (.ok row)
    | .error e => some (.error e)

/-- The accumulation loop of `SyncExecutor::execute`:
`for item in ... \x7b res.extend([item?]); \x7d` — extend the accumulator with
each summary, returning the first error encountered. -/
def executeGo {Q : Type} (ext : Q → Q → Q) : Q → List (Except Error Q) → Except Error Q
  | res, [] => .ok res
  | res, .ok q :: rest => executeGo ext (ext res q) rest
  | _, .error e :: _ => .error e

/-- `SyncExecutor::execute` (sync_executor.rs lines 16-29): start from the
default summary and fold every item of `execute_many` into it via the merge
operation (`Extend`), failing on the first error. -/
def SyncExecutor.execute {Q R : Type} (ext : Q → Q → Q) (dflt : Q)
    (s : List (Except Error (Either Q R))) : Except Error Q :=
  executeGo ext dflt (SyncExecutor.execute_many s)

/-- `Iterator::collect::<Result<Vec<_>, _>>()` as used by `fetch_all`:
gather the `Ok` values in order, short-circuiting on the first `Err`. -/
def collectResults {α : Type} : List (Except Error α) → Except Error (List α)
  | [] => .ok []
  | .error e :: _ => .error e
  | .ok a :: rest =>
    match collectResults rest with
    | .error e => .error e
    | .ok l => .ok (a :: l)

/-- `SyncExecutor::fetch_all` (sync_executor.rs lines 85-94):
`self.fetch(query).collect()`. -/
def SyncExecutor.fetch_all {Q R : Type} (s : List (Except Error (Either Q R))) :
    Except Error (List R) :=
  collectResults (SyncExecutor.fetch s)

/-- `SyncExecutor::fetch_one` (sync_executor.rs lines 97-104):
`self.fetch_optional(query)?.ok_or_else(|| Error::RowNotFound)`, expressed
over the result of `fetch_optional`. -/
def SyncExecutor.fetch_one {R : Type} (res : Except Error (Option R)) : Except Error R :=
  match res with
  | .error e => .error e
  | .ok none => .error .RowNotFound
  | .ok (some row) => .ok row

/-- `SyncExecutor::prepare` (sync_executor.rs lines 124-132):
`self.prepare_with(query, &[])`, over a backend's `prepare_with`. -/
def SyncExecutor.prepare {T St : Type} (pw : String → List T → Except Error St)
    (sql : String) : Except Error St :=
  pw sql []

/-- The first error item of a result stream, if any. -/
def firstError {α : Type} : List (Except Error α) → Option Error
  | [] => none
  | .ok _ :: rest => firstError rest
  | .error e :: _ => some e

/-- The `Ok` payloads of a result stream, in order. -/
def okValues {α : Type} : List (Except Error α) → List α
  | [] => []
  | .ok a :: rest => a :: okValues rest
  | .error _ :: rest => okValues rest

/-- The row items of a tagged stream, in engine order. -/
def rowsOf {Q R : Type} (s : List (Except Error (Either Q R))) : List R :=
  s.filterMap fun res =>
    match res with
    | .ok (.right r) => some r
    | _ => none

/-- Whether a stream item is an `Ok` summary (neither a row nor an error). -/
def isOkLeft {Q R : Type} : Except Error (Either Q R) → Bool
  | .ok (.left _) => true
  | _ => false

/-- A stream item holding one single-column row. -/
def rowItem (n : Int) : SqliteStreamItem := .ok (.right ⟨[n]⟩)

/-- A stream item holding one statement summary. -/
def summaryItem (c : Nat) : SqliteStreamItem := .ok (.left ⟨c, 0⟩)

/-- An engine whose stream is a single row (value 15). -/
def engOneRow : SqliteEngine := fun _ _ _ => .ok [rowItem 15]

/-- An engine whose stream is three rows, mirroring the repository test
query `SELECT 15 UNION SELECT 51 UNION SELECT 39`. -/
def engThreeRows : SqliteEngine := fun _ _ _ => .ok [rowItem 15, rowItem 39, rowItem 51]

/-- An engine whose stream is a single statement summary and no rows. -/
def engSummaryOnly : SqliteEngine := fun _ _ _ => .ok [summaryItem 1]

/-- An engine whose execution setup fails (e.g. the prepare step errors). -/
def engSetupFail : SqliteEngine := fun _ _ _ => .error (.Database 7)

/-- A query whose arguments bind successfully to nothing. -/
def qPlain : SqliteQuery := { sql := "SELECT 1", arguments := .ok none, persistent := false }

/-- A query whose `take_arguments()` fails with an encode error. -/
def qEncodeFail : SqliteQuery := { sql := "SELECT ?", arguments := .error 3, persistent := true }

/-- Follows the spec's words (section 4.2): `fetch_optional` described as
`bridge_execute(..., limit = 1)` followed by a scan of the resulting items
for the first row item.  The source's `fetch_optional` instead passes
`limit = None`; this definition exists to compare the two. -/
def fetch_optional_spec (engine : SqliteEngine) (query : SqliteQuery) :
    Except Error (Option SqliteRow) :=
  match query.arguments with
  | .error e => .error (.Encode e)
  | .ok arguments =>
    let persistent := query.persistent && arguments.isSome
    scanRows (SyncSqliteConnection.execute engine query.sql arguments persistent (some 1))

/-- Claim C1: the limit policy is claimed to keep a running row count and,
for limit exactly 1, stop after producing the first row.  Evaluating the
bridge shows otherwise: with limit 1 a one-row stream is cut to the empty
stream (the first row is dropped, because the row is tagged `0 + 1` and
`take_while` requires the tag to stay strictly below the limit), and with
limit 2 a three-row stream is not truncated at all (the tag never exceeds 1,
since `idx` is an immutable 0 rather than a running counter). -/
theorem limit_one_drops_first_row :
    SyncSqliteConnection.execute engOneRow "SELECT 15" none false (some 1) = .ok []
    ∧ SyncSqliteConnection.execute engThreeRows "SELECT 15" none false (some 2)
        = .ok [rowItem 15, rowItem 39, rowItem 51] :=
  ⟨rfl, rfl⟩

/-- Claim C2: the spec's propagation policy says no error is suppressed, and
that a setup failure in `fetch_many` appears as an item of the stream.  The
code's `self.execute(..).into_iter().flatten()` discards an `Err` setup
result, so `fetch_many` on an engine whose setup fails returns the empty
stream, while `fetch_optional` propagates the very same error with `?`. -/
theorem fetch_many_swallows_setup_error :
    SyncSqliteConnection.fetch_many engSetupFail qPlain = []
    ∧ SyncSqliteConnection.fetch_optional engSetupFail qPlain = .error (.Database 7) :=
  ⟨rfl, rfl⟩

/-- Claim C3, counterexample: `fetch_optional` is not `bridge_execute` with
limit 1 followed by a scan.  On a one-row stream the source's
`fetch_optional` (limit `None`) returns the row, while the spec's described
composition (limit 1) returns none, because the limit machinery drops the
first row. -/
theorem fetch_optional_not_limit_one :
    SyncSqliteConnection.fetch_optional engOneRow qPlain = .ok (some ⟨[15]⟩)
    ∧ fetch_optional_spec engOneRow qPlain = .ok none
    ∧ SyncSqliteConnection.fetch_optional engOneRow qPlain
        ≠ fetch_optional_spec engOneRow qPlain := by
  refine ⟨rfl, rfl, ?_⟩
  intro h
  rw [show SyncSqliteConnection.fetch_optional engOneRow qPlain = .ok (some ⟨[15]⟩) from rfl,
    show fetch_optional_spec engOneRow qPlain = .ok none from rfl] at h
  simp at h

/-- When a stream has no row items and no error items, the scan loop of
`fetch_optional` reaches the end and reports no row. -/
theorem firstRow_none_of_no_rows (s : List SqliteStreamItem)
    (hr : rowsOf s = []) (he : firstError s = none) : firstRow s = .ok none := by
  induction s with
  | nil => rfl
  | cons x rest ih =>
    match x with
    | .error e => simp [firstError] at he
    | .ok (.right r) => simp [rowsOf, List.filterMap_cons] at hr
    | .ok (.left q) =>
      rw [rowsOf, List.filterMap_cons] at hr
      exact ih hr he

/-- Claim C3, amended: `fetch_optional` calls the bridge with `limit = None`
(no bound) and scans the full stream for the first row item; it returns the
first row found, and none when the stream carries no row and no error. -/
theorem fetch_optional_scans_unlimited (engine : SqliteEngine) (q : SqliteQuery)
    (a : Option SqliteArguments) (s : List SqliteStreamItem)
    (ha : q.arguments = .ok a)
    (hs : engine q.sql a (q.persistent && a.isSome) = .ok s) :
    SyncSqliteConnection.fetch_optional engine q = firstRow s
    ∧ (rowsOf s = [] → firstError s = none →
        SyncSqliteConnection.fetch_optional engine q = .ok none) := by
  have hmain : SyncSqliteConnection.fetch_optional engine q = firstRow s := by
    simp [SyncSqliteConnection.fetch_optional, ha, SyncSqliteConnection.execute, hs, scanRows]
  exact ⟨hmain, fun hr he => hmain.trans (firstRow_none_of_no_rows s hr he)⟩

/-- Witness for C3's amended theorem at a concrete engine: a summary-only
stream makes `fetch_optional` return none. -/
theorem fetch_optional_scans_unlimited_witness :
    SyncSqliteConnection.fetch_optional engSummaryOnly qPlain = firstRow [summaryItem 1]
    ∧ SyncSqliteConnection.fetch_optional engSummaryOnly qPlain = .ok none := by
  have h := fetch_optional_scans_unlimited engSummaryOnly qPlain none [summaryItem 1] rfl rfl
  exact ⟨h.1, h.2 rfl rfl⟩

/-- Claim C4: when argument binding fails, both `fetch_many` and
`fetch_optional` surface the encode error immediately, and the result does
not depend on the engine at all (the native engine is never invoked):
`fetch_many` is the single-item failing stream, `fetch_optional` the
immediate failure, under any two engines. -/
theorem encode_error_skips_engine (e1 e2 : SqliteEngine) (q : SqliteQuery) (err : Nat)
    (h : q.arguments = .error err) :
    SyncSqliteConnection.fetch_many e1 q = [.error (.Encode err)]
    ∧ SyncSqliteConnection.fetch_optional e1 q = .error (.Encode err)
    ∧ SyncSqliteConnection.fetch_many e1 q = SyncSqliteConnection.fetch_many e2 q
    ∧ SyncSqliteConnection.fetch_optional e1 q = SyncSqliteConnection.fetch_optional e2 q := by
  refine ⟨?_, ?_, ?_, ?_⟩ <;>
    simp [SyncSqliteConnection.fetch_many, SyncSqliteConnection.fetch_optional, h]

/-- Witness for C4 at a concrete failing query and two distinct engines. -/
theorem encode_error_skips_engine_witness :
    SyncSqliteConnection.fetch_many engOneRow qEncodeFail = [.error (.Encode 3)]
    ∧ SyncSqliteConnection.fetch_optional engOneRow qEncodeFail = .error (.Encode 3)
    ∧ SyncSqliteConnection.fetch_many engOneRow qEncodeFail
        = SyncSqliteConnection.fetch_many engSetupFail qEncodeFail
    ∧ SyncSqliteConnection.fetch_optional engOneRow qEncodeFail
        = SyncSqliteConnection.fetch_optional engSetupFail qEncodeFail :=
  encode_error_skips_engine engOneRow engSetupFail qEncodeFail 3 rfl

/-- The accumulation loop of `execute` returns the first error of its input
and otherwise folds the merge operation over the summaries in order. -/
theorem executeGo_eq {Q : Type} (ext : Q → Q → Q) (acc : Q) (l : List (Except Error Q)) :
    executeGo ext acc l =
      match firstError l with
      | some e => .error e
      | none => .ok (List.foldl ext acc (okValues l)) := by
  induction l generalizing acc with
  | nil => rfl
  | cons x rest ih =>
    match x with
    | .ok q => simp [executeGo, firstError, okValues, ih]
    | .error e => rfl

/-- Claim C5: `execute` is the merge-accumulation of every summary yielded
by `execute_many`, starting from the default summary (so zero summaries
yield the default); if `execute_many` carries an error, `execute` returns
the first such error, discarding any partial accumulation. -/
theorem execute_merges_summaries {Q R : Type} (ext : Q → Q → Q) (dflt : Q)
    (s : List (Except Error (Either Q R))) :
    SyncExecutor.execute ext dflt s =
      match firstError (SyncExecutor.execute_many s) with
      | some e => .error e
      | none => .ok (List.foldl ext dflt (okValues (SyncExecutor.execute_many s))) :=
  executeGo_eq ext dflt (SyncExecutor.execute_many s)

/-- Claim C6: on a stream with no error items, `fetch_all` returns exactly
the row items in engine order (summaries discarded); on a stream with an
error item, it fails with the first error, discarding the rows collected so
far. -/
theorem fetch_all_rows_in_order {Q R : Type} (s : List (Except Error (Either Q R))) :
    SyncExecutor.fetch_all s =
      match firstError s with
      | none => .ok (rowsOf s)
      | some e => .error e := by
  induction s with
  | nil => rfl
  | cons x rest ih =>
    match x with
    | .error e =>
      simp [SyncExecutor.fetch_all, SyncExecutor.fetch, List.filterMap_cons, collectResults,
        firstError]
    | .ok (.left q) =>
      simpa [SyncExecutor.fetch_all, SyncExecutor.fetch, List.filterMap_cons, collectResults,
        firstError, rowsOf] using ih
    | .ok (.right r) =>
      have h : SyncExecutor.fetch_all (Except.ok (Either.right r) :: rest)
          = match SyncExecutor.fetch_all rest with
            | .error e => .error e
            | .ok l => .ok (r :: l) := by
        simp [SyncExecutor.fetch_all, SyncExecutor.fetch, List.filterMap_cons, collectResults]
      rw [h, ih]
      rcases hfe : firstError rest with _ | e <;>
        simp [firstError, rowsOf, List.filterMap_cons, hfe]

/-- Claim C7: `fetch_one` returns the row produced by `fetch_optional` when
one exists; when `fetch_optional` yields no row it fails with
`Error::RowNotFound`, which is distinct from every engine/database error and
every encode error; an error from `fetch_optional` passes through. -/
theorem fetch_one_row_or_not_found {R : Type} (r : R) (e : Error) :
    SyncExecutor.fetch_one (Except.ok (some r)) = .ok r
    ∧ SyncExecutor.fetch_one (Except.ok (none : Option R)) = .error .RowNotFound
    ∧ SyncExecutor.fetch_one (Except.error e : Except Error (Option R)) = .error e
    ∧ (∀ c, (Error.RowNotFound : Error) ≠ .Database c)
    ∧ (∀ c, (Error.RowNotFound : Error) ≠ .Encode c) := by
  refine ⟨rfl, rfl, rfl, ?_, ?_⟩ <;> intro c <;> simp

/-- Claim C8: the persistence flag handed to the native engine is exactly
`query.persistent() && arguments.is_some()` in both `fetch_many` and
`fetch_optional`; in particular, when no arguments are present the flag is
false regardless of the query's hint. -/
theorem effective_persistence_flag (engine : SqliteEngine) (q : SqliteQuery)
    (a : Option SqliteArguments) (ha : q.arguments = .ok a) :
    SyncSqliteConnection.fetch_many engine q
      = resultToList (SyncSqliteConnection.execute engine q.sql a (q.persistent && a.isSome) none)
    ∧ SyncSqliteConnection.fetch_optional engine q
      = scanRows (SyncSqliteConnection.execute engine q.sql a (q.persistent && a.isSome) none)
    ∧ (a = none → (q.persistent && a.isSome) = false) := by
  refine ⟨?_, ?_, ?_⟩
  · simp [SyncSqliteConnection.fetch_many, ha]
  · simp [SyncSqliteConnection.fetch_optional, ha]
  · rintro rfl
    simp [Option.isSome]

/-- Witness for C8 at a concrete engine and an argument-free query whose
persistence hint is irrelevant. -/
theorem effective_persistence_flag_witness :
    SyncSqliteConnection.fetch_many engOneRow qPlain
      = resultToList (SyncSqliteConnection.execute engOneRow qPlain.sql none
          (qPlain.persistent && (none : Option SqliteArguments).isSome) none)
    ∧ SyncSqliteConnection.fetch_optional engOneRow qPlain
      = scanRows (SyncSqliteConnection.execute engOneRow qPlain.sql none
          (qPlain.persistent && (none : Option SqliteArguments).isSome) none)
    ∧ ((none : Option SqliteArguments) = none →
        (qPlain.persistent && (none : Option SqliteArguments).isSome) = false) :=
  effective_persistence_flag engOneRow qPlain none rfl

/-- The scan loop of `fetch_optional` is unaffected by leading summary
items. -/
theorem firstRow_skips_summaries (pre l : List SqliteStreamItem)
    (hpre : pre.all isOkLeft = true) : firstRow (pre ++ l) = firstRow l := by
  induction pre with
  | nil => rfl
  | cons x rest ih =>
    match x with
    | .ok (.left q) =>
      rw [List.cons_append, firstRow]
      exact ih (by simpa [List.all_cons, isOkLeft] using hpre)
    | .ok (.right r) => simp [List.all_cons, isOkLeft] at hpre
    | .error e => simp [List.all_cons, isOkLeft] at hpre

/-- An engine stream whose first row is followed by a late error: the error
sits after the row. -/
def engRowThenError : SqliteEngine :=
  fun _ _ _ => .ok [summaryItem 1, rowItem 15, .error (.Database 9)]

/-- An engine stream whose error precedes the first row. -/
def engErrorBeforeRow : SqliteEngine :=
  fun _ _ _ => .ok [summaryItem 1, .error (.Database 9), rowItem 15]

/-- Claim C9: `fetch_optional` stops at the first row item — when the stream
is summaries, then a row, then anything at all (including error items), the
result is that row and nothing after it is observed; when an error item
precedes the first row, that error is returned. -/
theorem fetch_optional_first_row_wins (engine : SqliteEngine) (q : SqliteQuery)
    (a : Option SqliteArguments) (pre rest : List SqliteStreamItem) (r : SqliteRow) (e : Error)
    (ha : q.arguments = .ok a) (hpre : pre.all isOkLeft = true) :
    (engine q.sql a (q.persistent && a.isSome) = .ok (pre ++ .ok (.right r) :: rest) →
      SyncSqliteConnection.fetch_optional engine q = .ok (some r))
    ∧ (engine q.sql a (q.persistent && a.isSome) = .ok (pre ++ .error e :: rest) →
      SyncSqliteConnection.fetch_optional engine q = .error e) := by
  constructor <;> intro hs <;>
    simp [SyncSqliteConnection.fetch_optional, ha, SyncSqliteConnection.execute, hs, scanRows,
      firstRow_skips_summaries pre _ hpre, firstRow]

/-- Witness for C9: a late error after the first row is never surfaced, and
an early error before any row is. -/
theorem fetch_optional_first_row_wins_witness :
    SyncSqliteConnection.fetch_optional engRowThenError qPlain = .ok (some ⟨[15]⟩)
    ∧ SyncSqliteConnection.fetch_optional engErrorBeforeRow qPlain = .error (.Database 9) :=
  ⟨(fetch_optional_first_row_wins engRowThenError qPlain none [summaryItem 1]
      [.error (.Database 9)] ⟨[15]⟩ (.Database 9) rfl rfl).1 rfl,
   (fetch_optional_first_row_wins engErrorBeforeRow qPlain none [summaryItem 1]
      [rowItem 15] ⟨[15]⟩ (.Database 9) rfl rfl).2 rfl⟩

/-- Claim C10: `prepare_with` ignores the supplied parameter type hints —
any two hint slices give the same result, which also equals `prepare` (the
core default passing the empty hint slice) — and a successful result
carries the caller's original SQL text. -/
theorem prepare_with_ignores_hints (wp : String → Except Error SqliteStatement)
    (sql : String) (p1 p2 : List SqliteTypeInfo) :
    SyncSqliteConnection.prepare_with wp sql p1 = SyncSqliteConnection.prepare_with wp sql p2
    ∧ SyncSqliteConnection.prepare_with wp sql p1
        = SyncExecutor.prepare (SyncSqliteConnection.prepare_with wp) sql
    ∧ (∀ st, SyncSqliteConnection.prepare_with wp sql p1 = .ok st → st.sql = sql) := by
  refine ⟨rfl, rfl, fun st h => ?_⟩
  unfold SyncSqliteConnection.prepare_with at h
  cases hwp : wp sql with
  | error e => rw [hwp] at h; cases h
  | ok statement =>
    rw [hwp] at h
    simp only [Except.ok.injEq] at h
    rw [← h]

/-- A worker prepare primitive returning a fixed statement whose recorded
SQL text differs from the caller's. -/
def wpFixed : String → Except Error SqliteStatement :=
  fun _ => .ok ⟨"native text", 2, ["c0"]⟩

/-- Witness for C10 at a concrete worker primitive and hint slices. -/
theorem prepare_with_ignores_hints_witness :
    SyncSqliteConnection.prepare_with wpFixed "SELECT 1" []
      = SyncSqliteConnection.prepare_with wpFixed "SELECT 1" [7]
    ∧ SyncSqliteConnection.prepare_with wpFixed "SELECT 1" []
        = SyncExecutor.prepare (SyncSqliteConnection.prepare_with wpFixed) "SELECT 1"
    ∧ (⟨"SELECT 1", 2, ["c0"]⟩ : SqliteStatement).sql = "SELECT 1" := by
  have h := prepare_with_ignores_hints wpFixed "SELECT 1" [] [7]
  exact ⟨h.1, h.2.1, h.2.2 ⟨"SELECT 1", 2, ["c0"]⟩ rfl⟩
